import Mathlib

/-!
Verification of the icon-service deployment-record storage, deploy engine and
container primitives.

The development shallowly embeds the Python sources:
  iconservice/deploy/icon_score_deploy_storage.py
  iconservice/deploy/icon_score_deploy_engine.py
  iconservice/iconscore/icon_container_db.py

Bytes are modelled as `List Nat` (each entry a byte value), fallible Python code
as `Except Err`, and the flat key-value store as explicit maps.  Parts of the
repository that the sources import but that are not present (icon_constant.py,
base/address.py, utils/__init__.py, database/db.py, the DeployType/DeployState
enums) are modelled from the specification; each such definition carries a
doc comment saying so.
-/

/-- Errors raised by the embedded code.  Constructors follow the spec's error
taxonomy; each maps to a concrete Python raise site:
`duplicateTxParams`, `ownerMismatch`, `recordNotFound`, `txHashMismatch` are the
`ServerErrorException`s of icon_score_deploy_storage.py; `corruptRecord` is a
malformed-record decode failure (bad address prefix / bad enum byte / JSON
failure); `structError` is Python struct.pack/unpack failure (wrong buffer
length, packing `None`); `assertError` is a failed `assert`;
`invalidParams` is `InvalidParamsException`; `invalidContentType` the
content-type rejections of the engine; `blacklistedScore` / `unauthorizedDeployer`
the deny-list / allow-list rejections; `indexOutOfRange` is
`ContainerDBException(... out of range)`; `invalidNodeId` is the
`ContainerDBException` raised by `Node.encode` on id 0; `noneAttribute` is a
Python `AttributeError` from dereferencing `None`; `typeError` / `keyError` are
the corresponding Python exceptions. -/
inductive Err where
  | duplicateTxParams
  | ownerMismatch
  | recordNotFound
  | txHashMismatch
  | corruptRecord
  | structError
  | assertError
  | invalidParams
  | invalidContentType
  | blacklistedScore
  | unauthorizedDeployer
  | indexOutOfRange
  | invalidNodeId
  | noneAttribute
  | typeError
  | keyError
  deriving DecidableEq, Repr

/-- Modelled from the spec: icon_constant.py is not in src/; hashes are 32 bytes. -/
def DEFAULT_BYTE_SIZE : Nat := 32

/-- Modelled from the spec: icon_constant.py is not in src/; contract addresses
are exactly 21 bytes (1 type byte + 20 body bytes). -/
def ICON_CONTRACT_ADDRESS_BYTES_SIZE : Nat := 21

/-- Modelled from the spec: icon_constant.py is not in src/; the spec fixes all
addresses at exactly 21 bytes (1 type byte + 20 body bytes), owner included
(record layout owner(21), total 108 bytes). -/
def ICON_EOA_ADDRESS_BYTES_SIZE : Nat := 21

/-- Modelled from the spec: icon_constant.py is not in src/.  `REVISION_2` is
the ruleset revision that introduced the system-score audit exemption and the
prefixed delete of superseded tx-params. -/
def REVISION_2 : Nat := 2

/-- Semantics of Python `struct.pack` with format `ks`: the argument is
truncated or zero-padded to exactly `k` bytes. -/
def packS (k : Nat) (l : List Nat) : List Nat :=
  l.take k ++ List.replicate (k - l.length) 0

/-- Big-endian base-256 digits of `v`, exactly `k` digits (Python
`int.to_bytes(k, byteorder=big)` up to overflow, and the fixed-width fields of
`struct.pack`). -/
def natToBEBytes : Nat → Nat → List Nat
  | 0, _ => []
  | k + 1, v => natToBEBytes k (v / 256) ++ [v % 256]

/-- Big-endian interpretation of a byte string as an unsigned integer
(Python `int.from_bytes(_, byteorder=big)`). -/
def natFromBE (l : List Nat) : Nat :=
  l.foldl (fun a b => a * 256 + b) 0

/-- Python `int.from_bytes(_, byteorder=big, signed=True)`:
two's-complement big-endian; the empty string decodes to 0. -/
def intFromBytes : List Nat → Int
  | [] => 0
  | b :: bs =>
      let u : Nat := natFromBE (b :: bs)
      if 128 ≤ b then (u : Int) - 2 ^ (8 * (bs.length + 1)) else (u : Int)

/-- Fuel-driven bit length, `bitLenAux n n = Nat.size n` (Python
`int.bit_length`); the fuel argument keeps the definition structural. -/
def bitLenAux : Nat → Nat → Nat
  | 0, _ => 0
  | fuel + 1, n => if n = 0 then 0 else bitLenAux fuel (n / 2) + 1

/-- Python `int.bit_length()` of a nonnegative integer. -/
def bitLen (n : Nat) : Nat := bitLenAux n n

/-- Modelled from the spec: utils/__init__.py is not in src/.  Byte length used
by `int_to_bytes`: minimal-length two's complement
(`byte_length_of_int`: bit length of `n`, of `n+1` for negative `n`,
divided by 8, plus 1). -/
def byte_length_of_int (n : Int) : Nat :=
  (if n < 0 then bitLen (n + 1).natAbs else bitLen n.toNat) / 8 + 1

/-- Modelled from the spec: utils/__init__.py is not in src/.  Integers encode
as minimal-length two's-complement big-endian bytes (`int_to_bytes`). -/
def int_to_bytes (n : Int) : List Nat :=
  let len := byte_length_of_int n
  natToBEBytes len (n % ((2 : Int) ^ (8 * len))).toNat

/-- Modelled from the spec: base/address.py is not in src/.  An address is one
type byte (0 = externally owned, 1 = contract) followed by a 20-byte body. -/
structure Address where
  isContract : Bool
  body : List Nat
  deriving DecidableEq, Repr

/-- Modelled from the spec: `Address.to_bytes` is the 21-byte form,
type byte then body. -/
def Address.to_bytes (a : Address) : List Nat :=
  (if a.isContract then 1 else 0) :: a.body

/-- Modelled from the spec: `Address.from_bytes` accepts exactly 21 bytes whose
first byte is a recognized address type. -/
def Address.from_bytes (l : List Nat) : Except Err Address :=
  if l.length = 21 then
    match l with
    | 0 :: body => .ok ⟨false, body⟩
    | 1 :: body => .ok ⟨true, body⟩
    | _ => .error .corruptRecord
  else .error .corruptRecord

/-- Modelled from the spec: deploy/__init__.py is not in src/.
`DeployState` enum {INACTIVE, ACTIVE}. -/
inductive DeployState where
  | INACTIVE
  | ACTIVE
  deriving DecidableEq, Repr

/-- Integer value of a `DeployState` (IntEnum value written by `to_bytes`). -/
def DeployState.value : DeployState → Nat
  | .INACTIVE => 0
  | .ACTIVE => 1

/-- Python `DeployState(v)`: fails (ValueError) on an unknown value. -/
def DeployState.ofValue : Nat → Except Err DeployState
  | 0 => .ok .INACTIVE
  | 1 => .ok .ACTIVE
  | _ => .error .corruptRecord

/-- Modelled from the spec: deploy/__init__.py is not in src/.
`DeployType` enum {INSTALL, UPDATE}. -/
inductive DeployType where
  | INSTALL
  | UPDATE
  deriving DecidableEq, Repr

/-- Integer value of a `DeployType`. -/
def DeployType.value : DeployType → Nat
  | .INSTALL => 0
  | .UPDATE => 1

/-- Python `DeployType(v)`: fails (ValueError) on an unknown value. -/
def DeployType.ofValue : Nat → Except Err DeployType
  | 0 => .ok .INSTALL
  | 1 => .ok .UPDATE
  | _ => .error .corruptRecord

/-- The deploy record (`IconScoreDeployInfo` of icon_score_deploy_storage.py).
The tx-hash fields are `Option` because `update_score_info` assigns `None`
to `next_tx_hash` after construction. -/
structure IconScoreDeployInfo where
  score_address : Address
  deploy_state : DeployState
  owner : Address
  current_tx_hash : Option (List Nat)
  next_tx_hash : Option (List Nat)
  deriving DecidableEq, Repr

/-- Embeds `IconScoreDeployInfo.__init__`, whose asserts require both tx hashes
to be `bytes` of length 32 (in particular they reject `None`). -/
def mkIconScoreDeployInfo (score_address : Address) (deploy_state : DeployState)
    (owner : Address) (current_tx_hash next_tx_hash : Option (List Nat)) :
    Except Err IconScoreDeployInfo :=
  match current_tx_hash, next_tx_hash with
  | some c, some n =>
      if c.length = 32 ∧ n.length = 32 then
        .ok ⟨score_address, deploy_state, owner, some c, some n⟩
      else .error .assertError
  | _, _ => .error .assertError

/-- Embeds `IconScoreDeployInfo.to_bytes`: `struct.pack` of
version(1) | deploy_state(1) | score_address(21) | owner(21) |
current_tx_hash(32) | next_tx_hash(32).  Packing fails (struct.error) when a
hash field holds `None` instead of bytes. -/
def IconScoreDeployInfo.to_bytes (info : IconScoreDeployInfo) :
    Except Err (List Nat) :=
  match info.current_tx_hash, info.next_tx_hash with
  | some c, some n =>
      .ok ([0, info.deploy_state.value] ++ packS 21 info.score_address.to_bytes
        ++ packS 21 info.owner.to_bytes ++ packS 32 c ++ packS 32 n)
  | _, _ => .error .structError

/-- Embeds `IconScoreDeployInfo.from_bytes`: `struct.unpack` demands a buffer
of exactly 108 bytes; a legacy deploy-state byte of 2 maps to ACTIVE; the
record is then built through the asserting constructor. -/
def IconScoreDeployInfo.from_bytes (buf : List Nat) :
    Except Err IconScoreDeployInfo := do
  if buf.length = 108 then
    let stv := (buf.drop 1).headD 0
    let rest := buf.drop 2
    let addr_b := rest.take 21
    let rest := rest.drop 21
    let owner_b := rest.take 21
    let rest := rest.drop 21
    let cur := rest.take 32
    let next := (rest.drop 32).take 32
    let score_address ← Address.from_bytes addr_b
    let owner ← Address.from_bytes owner_b
    let stv := if stv = 2 then 1 else stv
    let deploy_state ← DeployState.ofValue stv
    mkIconScoreDeployInfo score_address deploy_state owner (some cur) (some next)
  else throw .structError

/-- The deploy transaction parameters (`IconScoreDeployTXParams`), generic in
the type `Δ` of the `deploy_data` payload. -/
structure IconScoreDeployTXParams (Δ : Type) where
  tx_hash : List Nat
  deploy_type : DeployType
  score_address : Address
  deploy_data : Δ

/-- Embeds `IconScoreDeployTXParams.to_bytes`:
version(1) | deploy_type(1) | deploy_data_length(4, big-endian unsigned) |
score_address(21) | tx_hash(32) | payload.  `dumps` abstracts `json.dumps`
followed by UTF-8 encoding; packing the length fails (struct.error) if it does
not fit in 4 bytes. -/
def txParamsToBytes {Δ : Type} (dumps : Δ → List Nat)
    (p : IconScoreDeployTXParams Δ) : Except Err (List Nat) :=
  let payload := dumps p.deploy_data
  if payload.length < 2 ^ 32 then
    .ok ([0, p.deploy_type.value] ++ natToBEBytes 4 payload.length
      ++ packS 21 p.score_address.to_bytes ++ packS 32 p.tx_hash ++ payload)
  else .error .structError

/-- Embeds `IconScoreDeployTXParams.from_bytes`: unpacks the 59-byte fixed
head, then demands that the remainder has exactly the announced payload length;
`loads` abstracts `json.loads`, whose failure is a malformed-payload error. -/
def txParamsFromBytes {Δ : Type} (loads : List Nat → Option Δ)
    (buf : List Nat) : Except Err (IconScoreDeployTXParams Δ) := do
  if 59 ≤ buf.length then
    let dt := (buf.drop 1).headD 0
    let plen := natFromBE ((buf.drop 2).take 4)
    let rest := buf.drop 6
    let addr_b := rest.take 21
    let hash_b := (rest.drop 21).take 32
    let payload := buf.drop 59
    if payload.length = plen then
      let score_address ← Address.from_bytes addr_b
      let deploy_type ← DeployType.ofValue dt
      match loads payload with
      | some d => .ok ⟨hash_b, deploy_type, score_address, d⟩
      | none => throw .corruptRecord
    else throw .structError
  else throw .structError

/-- Durable state of the deploy storage.  The underlying flat store is split by
the reserved key spaces actually used: records keyed by
`isds|di| ++ address bytes` (the address-to-bytes map), tx params keyed by
`isds|dtp| ++ tx_hash` (the hash-to-bytes map), and `rawDb` for unprefixed keys
(the pre-REVISION_2 delete writes there).  Key construction is injective per
space, so keying by the decoded address/hash is faithful. -/
structure Storage where
  deployInfo : Address → Option (List Nat)
  txParams : List Nat → Option (List Nat)
  rawDb : List Nat → Option (List Nat)

/-- Embeds `IconScoreDeployStorage.put_deploy_info`: encode and store under the
record's address key. -/
def put_deploy_info (s : Storage) (info : IconScoreDeployInfo) :
    Except Err Storage := do
  let v ← info.to_bytes
  .ok { s with deployInfo :=
          fun a => if a = info.score_address then some v else s.deployInfo a }

/-- Embeds `IconScoreDeployStorage.get_deploy_info`: fetch and decode, `none`
when the key is absent. -/
def get_deploy_info (s : Storage) (a : Address) :
    Except Err (Option IconScoreDeployInfo) :=
  match s.deployInfo a with
  | none => .ok none
  | some bs => (IconScoreDeployInfo.from_bytes bs).map some

/-- Embeds `IconScoreDeployStorage.put_deploy_tx_params`. -/
def put_deploy_tx_params {Δ : Type} (dumps : Δ → List Nat) (s : Storage)
    (p : IconScoreDeployTXParams Δ) : Except Err Storage := do
  let v ← txParamsToBytes dumps p
  .ok { s with txParams :=
          fun h => if h = p.tx_hash then some v else s.txParams h }

/-- Embeds `IconScoreDeployStorage.get_deploy_tx_params`. -/
def get_deploy_tx_params {Δ : Type} (loads : List Nat → Option Δ) (s : Storage)
    (tx_hash : List Nat) : Except Err (Option (IconScoreDeployTXParams Δ)) :=
  match s.txParams tx_hash with
  | none => .ok none
  | some bs => (txParamsFromBytes loads bs).map some

/-- Embeds `IconScoreDeployStorage.put_deploy_info_and_tx_params`.
`revision` abstracts `IconScoreContextUtil.get_revision(context)`.  Steps, in
source order: reject a duplicate tx-hash, store the new tx params, then create
the record (through the asserting constructor, with `None` current hash) or
update it after the owner check, deleting a superseded pending tx-params entry
(under the prefixed key from REVISION_2 on, under the raw unprefixed key
before). -/
def put_deploy_info_and_tx_params {Δ : Type} (revision : Nat)
    (dumps : Δ → List Nat) (loads : List Nat → Option Δ) (s : Storage)
    (score_address : Address) (deploy_type : DeployType) (owner : Address)
    (tx_hash : List Nat) (deploy_data : Δ) : Except Err Storage := do
  let prev ← get_deploy_tx_params loads s tx_hash
  let s ← (match prev with
    | none =>
        put_deploy_tx_params dumps s
          ⟨tx_hash, deploy_type, score_address, deploy_data⟩
    | some _ => throw Err.duplicateTxParams)
  let info? ← get_deploy_info s score_address
  match info? with
  | none => do
      let info ← mkIconScoreDeployInfo score_address .INACTIVE owner
        none (some tx_hash)
      put_deploy_info s info
  | some info => do
      if info.owner ≠ owner then throw Err.ownerMismatch
      let s ← match info.next_tx_hash with
        | some nxt =>
            if REVISION_2 ≤ revision then
              pure { s with txParams :=
                      fun h => if h = nxt then none else s.txParams h }
            else
              pure { s with rawDb :=
                      fun h => if h = nxt then none else s.rawDb h }
        | none => pure s
      put_deploy_info s { info with next_tx_hash := some tx_hash }

/-- Embeds `IconScoreDeployStorage.update_score_info` (the spec's `activate`):
load the record (RecordNotFound when absent), compare a provided tx hash with
the pending one (TxHashMismatch), then set `current_tx_hash` to the old
`next_tx_hash`, clear `next_tx_hash` to `None`, set ACTIVE, store, and finally
verify the activated tx params still exist. -/
def update_score_info {Δ : Type} (loads : List Nat → Option Δ) (s : Storage)
    (score_address : Address) (tx_hash : Option (List Nat)) :
    Except Err Storage := do
  let info? ← get_deploy_info s score_address
  match info? with
  | none => throw .recordNotFound
  | some info => do
      let next := info.next_tx_hash
      match tx_hash with
      | some h => if some h ≠ next then throw Err.txHashMismatch else pure ()
      | none => pure ()
      let info := { info with current_tx_hash := next, next_tx_hash := none,
                              deploy_state := .ACTIVE }
      let s ← put_deploy_info s info
      match info.current_tx_hash with
      | none => throw .typeError
      | some cur => do
          let tp ← get_deploy_tx_params (Δ := Δ) loads s cur
          match tp with
          | none => throw .recordNotFound
          | some _ => pure s

/-- Embeds `IconScoreDeployStorage.get_score_owner`. -/
def get_score_owner (s : Storage) (a : Address) : Except Err (Option Address) := do
  match ← get_deploy_info s a with
  | none => pure none
  | some info => pure (some info.owner)

/-- Modelled from the spec: database/db.py (the `ContextDatabase` write batch)
is not in src/.  Writes become durable only when the caller commits the
transaction; a failing call's batch is discarded, leaving prior durable state
untouched.  Hence the durable state after an operation is its result on
success and the prior state on failure. -/
def durableAfter (r : Except Err Storage) (s0 : Storage) : Storage :=
  match r with
  | .ok s => s
  | .error _ => s0

/-- Modelled from the spec: base/address.py is not in src/.  The zero score
address `cx0000...00`. -/
def ZERO_SCORE_ADDRESS : Address := ⟨true, List.replicate 20 0⟩

/-- Ambient execution context consumed by `IconScoreDeployEngine.invoke`.
Modelled from the spec: IconScoreContextUtil, the service-flag state and
`utils.is_builtin_score` are not in src/; they are abstracted as fields
(`blacklisted` is the outcome of `validate_score_blacklist`, `deployerAllowed`
of `validate_deployer`, `auditEnabled` of `is_service_flag_on(AUDIT)`,
`deployerWhiteListOn` of `is_service_flag_on(DEPLOYER_WHITE_LIST)`,
`isBuiltinScoreAddr` of `is_builtin_score(str(address))`). -/
structure DeployCtx where
  origin : Address
  txHash : List Nat
  revision : Nat
  auditEnabled : Bool
  deployerWhiteListOn : Bool
  deployerAllowed : Address → Bool
  blacklisted : Address → Bool
  isBuiltinScoreAddr : Address → Bool

/-- Embeds `IconScoreDeployEngine._is_audit_needed`: the system-score test is
made only from REVISION_2 on; the owner test compares the transaction origin
with the recorded owner (`IconScoreContextUtil.get_owner`, modelled from the
spec as the deploy storage's `get_score_owner` on the current state); audit is
needed iff auditing is enabled and the target is not an owner-deployed system
score. -/
def is_audit_needed (ctx : DeployCtx) (s : Storage) (icon_score_address : Address) :
    Except Err Bool := do
  let isSystemScore :=
    if REVISION_2 ≤ ctx.revision then ctx.isBuiltinScoreAddr icon_score_address
    else false
  let ownerOpt ← get_score_owner s icon_score_address
  pure (ctx.auditEnabled && !(isSystemScore && ownerOpt == some ctx.origin))

/-- Embeds `IconScoreDeployEngine.invoke`.  The asserts on the target address
come first, then the (unreachable) explicit zero-address check, the deploy-type
selection from the `to` address, the blacklist and deployer-allow-list checks, the
composite storage write, and—only when audit is not needed—the immediate
deployment of the transaction's own hash.  `deployFn` abstracts
`IconScoreDeployEngine.deploy`; the returned `Option` records the tx hash
deployment was invoked for (`none` when the transaction stops at RECORDED). -/
def invoke {Δ : Type} (dumps : Δ → List Nat) (loads : List Nat → Option Δ)
    (deployFn : Storage → List Nat → Except Err Storage) (ctx : DeployCtx)
    (s : Storage) (to_addr icon_score_address : Address) (data : Δ) :
    Except Err (Storage × Option (List Nat)) := do
  if icon_score_address = ZERO_SCORE_ADDRESS then throw Err.assertError
  if !icon_score_address.isContract then throw Err.assertError
  if icon_score_address = ZERO_SCORE_ADDRESS then throw Err.invalidParams
  let deploy_type :=
    if to_addr = ZERO_SCORE_ADDRESS then DeployType.INSTALL else DeployType.UPDATE
  if ctx.blacklisted icon_score_address then throw Err.blacklistedScore
  if ctx.deployerWhiteListOn && !ctx.deployerAllowed ctx.origin then
    throw Err.unauthorizedDeployer
  let s' ← put_deploy_info_and_tx_params ctx.revision dumps loads s
    icon_score_address deploy_type ctx.origin ctx.txHash data
  let needed ← is_audit_needed ctx s' icon_score_address
  if !needed then
    let s'' ← deployFn s' ctx.txHash
    pure (s'', some ctx.txHash)
  else pure (s', none)

/-- The `deploy_data` payload as read by the engine: content-type tag, raw
content, and hook parameters (`data.get(contentType)`, `data.get(content)`,
`data.get(params, default empty)`). -/
structure EngineDeployData where
  contentType : Option String
  content : Option (List Nat)
  params : Option (List Nat)

/-- External collaborators of the deploy engine.  Modelled from the spec:
IconScoreDeployer (code materialization), the package validator, the score
mapper/class loader and TypeConverter are not in src/; each is an abstract
fallible operation.  `createScore` returns the instantiated score abstracted
to its `owner` address (the value the engine substitutes as sender);
`fromhex` is Python `bytes.fromhex`. -/
structure DeployCollab where
  deployScore : Address → Option (List Nat) → List Nat → Except Err Unit
  deployScoreLegacy : Address → Option (List Nat) → List Nat → Except Err Unit
  tbearsSymlink : Address → List Nat → Except Err Unit
  fromhex : List Nat → Except Err (List Nat)
  validatePackage : Address → List Nat → Except Err Unit
  loadScoreInfo : Address → List Nat → Except Err Unit
  createScore : Address → Except Err Address
  initScore : DeployType → List Nat → Except Err Unit

/-- Static engine configuration (legacy tbears mode, the
SCORE_PACKAGE_VALIDATOR service flag, the active revision). -/
structure EngineCfg where
  legacyTbearsMode : Bool
  packageValidatorOn : Bool
  revision : Nat

/-- The mutable sender/transaction context (`context.msg.sender`,
`context.tx`). -/
structure EngineCtxState where
  msgSender : Address
  tx : Option (List Nat)
  deriving DecidableEq, Repr

/-- Embeds `IconScoreDeployEngine._score_deploy` up to the `_on_deploy` call:
content-type validation (tbears only in legacy mode, zip content converted
from hex in place, anything else rejected) returning the possibly-rewritten
deploy data. -/
def score_deploy_convert (cb : DeployCollab) (cfg : EngineCfg)
    (data : EngineDeployData) : Except Err EngineDeployData :=
  match data.contentType with
  | some ct =>
      if ct = "application/tbears" then
        if !cfg.legacyTbearsMode then .error .invalidContentType else .ok data
      else if ct = "application/zip" then
        match data.content with
        | none => .error .typeError
        | some cont =>
            (cb.fromhex (cont.drop 2)).map fun b => { data with content := some b }
      else .error .invalidContentType
  | none => .error .invalidContentType

/-- Embeds the `try` block of `IconScoreDeployEngine._on_deploy`: optional
package validation, score-info loading, score instantiation, the sender
substitution (`context.msg = Message(sender=score.owner)`,
`context.tx = None`) and the install/update hook invocation.  Returns the
block's result along with the context state as mutated before the `finally`
clause runs. -/
def on_deploy_try (cb : DeployCollab) (cfg : EngineCfg) (score_address : Address)
    (next_tx_hash : List Nat) (deploy_type : DeployType) (params : List Nat)
    (c : EngineCtxState) : Except Err Unit × EngineCtxState :=
  let pre : Except Err Address := do
    if cfg.packageValidatorOn then cb.validatePackage score_address next_tx_hash
    cb.loadScoreInfo score_address next_tx_hash
    cb.createScore score_address
  match pre with
  | .error e => (.error e, c)
  | .ok owner =>
      let c := { c with msgSender := owner, tx := none }
      match cb.initScore deploy_type params with
      | .error e => (.error e, c)
      | .ok _ => (.ok (), c)

/-- Embeds `IconScoreDeployEngine._on_deploy`: reads the pending tx hash (the
all-zero sentinel when absent), materializes the code (tbears symlink or the
revision-selected deployer method), then runs the `try` block with the
`finally` clause restoring the backed-up `context.msg` / `context.tx`
regardless of outcome. -/
def on_deploy (cb : DeployCollab) (cfg : EngineCfg) (s : Storage)
    (c0 : EngineCtxState) (tx_params : IconScoreDeployTXParams EngineDeployData) :
    Except Err Unit × EngineCtxState :=
  let data := tx_params.deploy_data
  let score_address := tx_params.score_address
  let res : Except Err Unit :=
    match get_deploy_info s score_address with
    | .error e => .error e
    | .ok info? =>
        let next_tx_hash :=
          match info? with
          | none => List.replicate DEFAULT_BYTE_SIZE 0
          | some info =>
              info.next_tx_hash.getD (List.replicate DEFAULT_BYTE_SIZE 0)
        let mat : Except Err Unit :=
          if data.contentType = some "application/tbears" then
            cb.tbearsSymlink score_address next_tx_hash
          else if REVISION_2 ≤ cfg.revision then
            cb.deployScore score_address data.content next_tx_hash
          else
            cb.deployScoreLegacy score_address data.content next_tx_hash
        match mat with
        | .error e => .error e
        | .ok _ =>
            (on_deploy_try cb cfg score_address next_tx_hash
              tx_params.deploy_type (data.params.getD []) c0).fst
  (res, c0)

/-- Outcome of `IconScoreDeployEngine.deploy`: the propagated error (if any),
the resulting durable deploy storage, the final sender/transaction context and
whether Deploy Storage's activation (`update_score_info`) was invoked. -/
structure EngineOutcome where
  err : Option Err
  storage : Storage
  msgSender : Address
  tx : Option (List Nat)
  activateCalled : Bool

/-- Embeds `IconScoreDeployEngine.deploy` (the spec's `do_deploy`): look up the
tx params (InvalidParams when absent), run `_score_deploy` (content validation,
materialization, hooks), then and only then call Deploy Storage's
`update_score_info`.  Any failure before that point propagates with the deploy
storage untouched (materialization writes to the filesystem, not to the
record store); `update_score_info` in this source commits no write before
failing, so its error also leaves the prior storage. -/
def engine_deploy (cb : DeployCollab) (cfg : EngineCfg)
    (eloads : List Nat → Option EngineDeployData) (s : Storage)
    (c0 : EngineCtxState) (tx_hash : List Nat) : EngineOutcome :=
  match get_deploy_tx_params eloads s tx_hash with
  | .error e => ⟨some e, s, c0.msgSender, c0.tx, false⟩
  | .ok none => ⟨some Err.invalidParams, s, c0.msgSender, c0.tx, false⟩
  | .ok (some tx_params) =>
      match score_deploy_convert cb cfg tx_params.deploy_data with
      | .error e => ⟨some e, s, c0.msgSender, c0.tx, false⟩
      | .ok data' =>
          match on_deploy cb cfg s c0 { tx_params with deploy_data := data' } with
          | (.error e, c') => ⟨some e, s, c'.msgSender, c'.tx, false⟩
          | (.ok _, c') =>
              match update_score_info eloads s tx_params.score_address
                  (some tx_hash) with
              | .ok s' => ⟨none, s', c'.msgSender, c'.tx, true⟩
              | .error e => ⟨some e, s, c'.msgSender, c'.tx, true⟩

/-- Key of the ArrayDB size slot: `ContainerUtil.encode_key(size)`, the UTF-8
bytes of the string `size`. -/
def ARRAY_SIZE_KEY : List Nat := [115, 105, 122, 101]

/-- The namespaced sub-store an `ArrayDB` instance operates on (everything
below its container prefix). -/
structure ArrayDBState where
  db : List Nat → Option (List Nat)

/-- Embeds `ArrayDB.__get_size` / `len(self)`: decode the size slot as a signed
integer, defaulting to 0 when absent (`ContainerUtil.decode_object`). -/
def arr_size (s : ArrayDBState) : Int :=
  match s.db ARRAY_SIZE_KEY with
  | none => 0
  | some v => intFromBytes v

/-- Embeds `ArrayDB.__getitem__` for an integer index: a negative index is
normalized once by adding the size, the normalized index is range-checked, and
the stored cell is decoded.  `decodeVal` abstracts
`ContainerUtil.decode_object(_, value_type)` (absence included, since a missing
key decodes to the type default). -/
def arr_getitem {α : Type} (decodeVal : Option (List Nat) → α)
    (s : ArrayDBState) (index : Int) : Except Err α :=
  let index := if index < 0 then index + arr_size s else index
  if index < 0 ∨ arr_size s ≤ index then .error .indexOutOfRange
  else .ok (decodeVal (s.db (int_to_bytes index)))

/-- Embeds `ArrayDB.__setitem__`: the only check is `index >= size` (no
negative-index normalization in the source), then the encoded value is stored
under the key of the raw index. -/
def arr_setitem (s : ArrayDBState) (index : Int) (byte_value : List Nat) :
    Except Err ArrayDBState :=
  if arr_size s ≤ index then .error .indexOutOfRange
  else .ok ⟨fun k => if k = int_to_bytes index then some byte_value else s.db k⟩

/-- A stored linked-list node as decoded from the store
(prev id, next id, payload). -/
structure LLNodeRec where
  prev : Int
  next : Int
  data : List Nat
  deriving DecidableEq, Repr

/-- A node as returned by `LinkedListDB._get_node_by_id`, which re-attaches the
looked-up id. -/
structure LLNode where
  prev : Int
  next : Int
  data : List Nat
  id : Int
  deriving DecidableEq, Repr

/-- The key space of one `LinkedListDB` instance, structured: node records live
under `encode_key(node id)` (`int_to_bytes` is injective, so the map is keyed
by the id itself), and the four counters live under their reserved string keys
(`head_node_id`, `tail_node_id`, `size_id`, `node_id`), modelled as fields. -/
structure LLState where
  store : Int → Option LLNodeRec
  headId : Int
  tailId : Int
  sizeCtr : Int
  nodeIdCtr : Int

/-- Embeds `LinkedListDB._get_node_by_id`: fetch, decode, and set the node's
id to the looked-up id; `none` when the key is absent. -/
def ll_get_node_by_id (store : Int → Option LLNodeRec) (node_id : Int) :
    Option LLNode :=
  match store node_id with
  | none => none
  | some r => some ⟨r.prev, r.next, r.data, node_id⟩

/-- Embeds `LinkedListDB._get_generator` consumption: `ll_walk store rev i k`
is the node yielded after `k` further `next()` calls once the generator was
started at id `i` (each step follows `prev` when `rev` is true, `next`
otherwise); `none` models the `AttributeError` of following a link to a
missing node. -/
def ll_walk (store : Int → Option LLNodeRec) (is_reverse : Bool) :
    Int → Nat → Option LLNode
  | start_id, 0 => ll_get_node_by_id store start_id
  | start_id, k + 1 =>
      match ll_get_node_by_id store start_id with
      | none => none
      | some node =>
          ll_walk store is_reverse (if is_reverse then node.prev else node.next) k

/-- Embeds `LinkedListDB._get_node_by_index`: reject `index >= size`, return
`None` on an empty list, normalize a negative index by adding the size, then
walk backward from the tail for `size - index - 1` steps when the (normalized)
index lies in the second half (`index > size // 2`, Python floor division),
else forward from the head for `index` steps; `range` of a negative count
walks zero steps. -/
def ll_get_node_by_index (store : Int → Option LLNodeRec)
    (head_id tail_id size : Int) (index : Int) : Except Err (Option LLNode) :=
  if size ≤ index then .error .indexOutOfRange
  else if size = 0 then .ok none
  else
    let index := if index < 0 then index + size else index
    let walked :=
      if Int.fdiv size 2 < index then
        ll_walk store true tail_id (size - index - 1).toNat
      else ll_walk store false head_id index.toNat
    match walked with
    | some node => .ok (some node)
    | none => .error .noneAttribute

/-- Embeds `LinkedListDB.__getitem__`: locate the node via
`_get_node_by_index` and decode its payload (`convert_data`, abstracted by
`decodeVal`); on an empty list the `None` result is dereferenced
(AttributeError). -/
def ll_getitem {α : Type} (decodeVal : List Nat → α) (s : LLState)
    (index : Int) : Except Err α :=
  match ll_get_node_by_index s.store s.headId s.tailId s.sizeCtr index with
  | .error e => .error e
  | .ok none => .error .noneAttribute
  | .ok (some node) => .ok (decodeVal node.data)

/-- Embeds `LinkedListDB._set_node_to_db`: a `None` node is skipped;
`Node.encode` rejects id 0; otherwise the encoded record is stored under the
node's id. -/
def ll_set_node_to_db (store : Int → Option LLNodeRec) (node : Option LLNode) :
    Except Err (Int → Option LLNodeRec) :=
  match node with
  | none => .ok store
  | some n =>
      if n.id = 0 then .error .invalidNodeId
      else .ok fun k => if k = n.id then some ⟨n.prev, n.next, n.data⟩ else store k

/-- Embeds `LinkedListDB._remove`.  The result pairs the raised error (if any)
with the state as left behind (Python mutates in place, so writes made before
a later failure persist in the instance's key space).  Branches, in source
order: reject `index >= size`; normalize a negative index by adding the size
once; single-element list clears head/tail; removing the last index relinks
the previous node and moves the tail; otherwise the neighbors of the located
node are relinked around it (a missing previous neighbor moves the head, a
missing next neighbor moves the tail, both missing dereferences `None`); on
success the node's key is deleted and the size counter decremented. -/
def ll_remove (s : LLState) (index : Int) : Option Err × LLState :=
  let head_id := s.headId
  let size := s.sizeCtr
  if size ≤ index then (some .indexOutOfRange, s)
  else
    let index := if index < 0 then index + size else index
    if size = 1 then
      let store := fun k => if k = head_id then none else s.store k
      (none, { s with store := store, headId := 0, tailId := 0, sizeCtr := size - 1 })
    else if index = size - 1 then
      match ll_get_node_by_index s.store head_id s.tailId size index with
      | .error e => (some e, s)
      | .ok none => (some .noneAttribute, s)
      | .ok (some remove_node) =>
          match ll_get_node_by_id s.store remove_node.prev with
          | none => (some .noneAttribute, s)
          | some prev_node =>
              let prev_node := { prev_node with next := 0 }
              match ll_set_node_to_db s.store (some prev_node) with
              | .error e => (some e, s)
              | .ok st1 =>
                  let st2 := fun k => if k = remove_node.id then none else st1 k
                  (none, { s with store := st2, tailId := prev_node.id,
                                  sizeCtr := size - 1 })
    else
      match ll_get_node_by_index s.store head_id s.tailId size index with
      | .error e => (some e, s)
      | .ok none => (some .noneAttribute, s)
      | .ok (some remove_node) =>
          match ll_get_node_by_id s.store remove_node.prev,
                ll_get_node_by_id s.store remove_node.next with
          | some prev_node, some next_node =>
              let prev_node' := { prev_node with next := next_node.id }
              let next_node' := { next_node with prev := prev_node.id }
              match ll_set_node_to_db s.store (some prev_node') with
              | .error e => (some e, s)
              | .ok st1 =>
                  match ll_set_node_to_db st1 (some next_node') with
                  | .error e => (some e, { s with store := st1 })
                  | .ok st2 =>
                      let st3 := fun k => if k = remove_node.id then none else st2 k
                      (none, { s with store := st3, sizeCtr := size - 1 })
          | none, some next_node =>
              let next_node' := { next_node with prev := 0 }
              let s1 := { s with headId := next_node.id }
              match ll_set_node_to_db s1.store (some next_node') with
              | .error e => (some e, s1)
              | .ok st2 =>
                  let st3 := fun k => if k = remove_node.id then none else st2 k
                  (none, { s1 with store := st3, sizeCtr := size - 1 })
          | some prev_node, none =>
              let prev_node' := { prev_node with next := 0 }
              let s1 := { s with tailId := prev_node.id }
              match ll_set_node_to_db s1.store (some prev_node') with
              | .error e => (some e, s1)
              | .ok st2 =>
                  let st3 := fun k => if k = remove_node.id then none else st2 k
                  (none, { s1 with store := st3, sizeCtr := size - 1 })
          | none, none => (some .noneAttribute, s)

/-- The node id stored at position `j` of the abstract element list
(0 when `j` is past the end, matching the 0 sentinel of missing links). -/
def ll_id_at (elems : List (Int × List Nat)) (j : Nat) : Int :=
  ((elems.get? j).map Prod.fst).getD 0

/-- The payload stored at position `j` of the abstract element list. -/
def ll_data_at (elems : List (Int × List Nat)) (j : Nat) : List Nat :=
  ((elems.get? j).map Prod.snd).getD []

/-- The node record a well-formed store holds at position `j`: prev is the id
at `j-1` (0 for the head), next the id at `j+1` (0 for the tail). -/
def ll_node_rec_at (elems : List (Int × List Nat)) (j : Nat) : LLNodeRec :=
  ⟨if j = 0 then 0 else ll_id_at elems (j - 1), ll_id_at elems (j + 1),
   ll_data_at elems j⟩

/-- The node (with id) a lookup at position `j` of a well-formed list
returns. -/
def ll_node_at (elems : List (Int × List Nat)) (j : Nat) : LLNode :=
  ⟨(ll_node_rec_at elems j).prev, (ll_node_rec_at elems j).next,
   ll_data_at elems j, ll_id_at elems j⟩

/-- The store is consistent with the abstract element list: each position's id
maps to the correctly linked record. -/
def ll_chain_ok (store : Int → Option LLNodeRec)
    (elems : List (Int × List Nat)) : Prop :=
  ∀ j, j < elems.length → store (ll_id_at elems j) = some (ll_node_rec_at elems j)

/-- Well-formedness of a `LinkedListDB` key space with respect to an abstract
element list: consistent links, head/tail counters at the first/last id, and a
correct size counter. -/
def ll_well_formed (s : LLState) (elems : List (Int × List Nat)) : Prop :=
  ll_chain_ok s.store elems ∧ s.headId = ll_id_at elems 0 ∧
  s.tailId = ll_id_at elems (elems.length - 1) ∧ s.sizeCtr = elems.length

/-! Reduction lemmas for the `Except` monad, used throughout the proofs. -/

@[simp]
theorem except_throw_eq {α : Type} (e : Err) :
    (throw e : Except Err α) = Except.error e := rfl

@[simp]
theorem except_bind_ok {α β : Type} (a : α) (f : α → Except Err β) :
    (Except.ok a >>= f : Except Err β) = f a := rfl

@[simp]
theorem except_bind_err {α β : Type} (e : Err) (f : α → Except Err β) :
    (Except.error e >>= f : Except Err β) = Except.error e := rfl

@[simp]
theorem except_map_ok {α β : Type} (a : α) (f : α → β) :
    Except.map f (Except.ok a : Except Err α) = Except.ok (f a) := rfl

@[simp]
theorem except_map_err {α β : Type} (e : Err) (f : α → β) :
    Except.map f (Except.error e : Except Err α) = Except.error e := rfl

@[simp]
theorem except_pure_eq {α : Type} (a : α) :
    (pure a : Except Err α) = Except.ok a := rfl

/-! Concrete values used by witnesses and counterexamples. -/

/-- An externally-owned example address. -/
def exOwnerAddr : Address := ⟨false, List.replicate 20 7⟩

/-- A second, distinct externally-owned example address. -/
def exOtherOwner : Address := ⟨false, List.replicate 20 9⟩

/-- An example contract address. -/
def exScoreAddr : Address := ⟨true, List.replicate 20 2⟩

/-- An example 32-byte transaction hash. -/
def exTxHash : List Nat := List.replicate 32 17

/-- A second, distinct example 32-byte transaction hash. -/
def exTxHash2 : List Nat := List.replicate 32 51

/-- The empty deploy storage. -/
def emptyStorage : Storage := ⟨fun _ => none, fun _ => none, fun _ => none⟩

/-- An example payload serializer over the trivial payload type
(the UTF-8 bytes of the JSON text null). -/
def exDumps : Unit → List Nat := fun _ => [110, 117, 108, 108]

/-- An example payload parser over the trivial payload type. -/
def exLoads : List Nat → Option Unit := fun _ => some ()

/-- Encoded bytes of an example record: INACTIVE, owner `exOwnerAddr`,
all-zero current hash, pending next hash `exTxHash`. -/
def exInfoBytes : List Nat :=
  [0, 0] ++ Address.to_bytes exScoreAddr ++ Address.to_bytes exOwnerAddr
    ++ List.replicate 32 0 ++ exTxHash

/-- The decoded form of `exInfoBytes`. -/
def exInfo : IconScoreDeployInfo :=
  ⟨exScoreAddr, .INACTIVE, exOwnerAddr, some (List.replicate 32 0), some exTxHash⟩

/-- A storage holding the example record for `exScoreAddr` and tx params
bytes for `exTxHash`. -/
def exStorage2 : Storage :=
  ⟨fun a => if a = exScoreAddr then some exInfoBytes else none,
   fun h => if h = exTxHash then some [1] else none,
   fun _ => none⟩

/-- C3: on a state with no record for the address and no tx params for the
hash, `put_deploy_info_and_tx_params` is claimed to succeed and persist an
INACTIVE record with the all-zero current-hash sentinel.  In this source it
instead dies in `IconScoreDeployInfo.__init__`: the constructor is called with
`current_tx_hash=None` (line 222), which its own
`assert isinstance(current_tx_hash, bytes)` rejects, so the call raises
AssertionError (and even with asserts stripped, `to_bytes` cannot pack
`None`).  This theorem evaluates the embedded code at the failing input. -/
theorem put_fresh_record_raises_assert :
    put_deploy_info_and_tx_params 2 exDumps exLoads emptyStorage exScoreAddr
      DeployType.INSTALL exOwnerAddr exTxHash () = .error Err.assertError := rfl

/-- C2: `update_score_info` (activate) is claimed to set the record ACTIVE and
persist it.  In this source the success path always fails: it assigns
`next_tx_hash = None` (line 260) and then `put_deploy_info` packs the record,
where `struct.pack` with format 32s rejects `None` (struct.error); the
None-to-all-zero-sentinel conversion the spec describes is absent.  This
theorem evaluates the embedded code at an input that satisfies every
precondition of the claimed success path (record present, tx hash equal to the
pending `next_tx_hash`, tx params present). -/
theorem activate_crashes_packing_none :
    update_score_info exLoads exStorage2 exScoreAddr (some exTxHash)
      = .error Err.structError := rfl

/-- C1: on a state holding a record for `score_address` with owner `O` and no
tx params for `tx_hash`, a `put_deploy_info_and_tx_params` presenting a
different owner fails with OwnerMismatch; under the transaction-rollback
semantics of `durableAfter`, the durable state is exactly the prior state, so
the stored owner is unchanged and neither a `DeployTxParams` entry nor any
record mutation persists. -/
theorem put_owner_mismatch_rejected {Δ : Type} (revision : Nat)
    (dumps : Δ → List Nat) (loads : List Nat → Option Δ) (s : Storage)
    (score_address : Address) (deploy_type : DeployType) (owner2 : Address)
    (tx_hash : List Nat) (deploy_data : Δ) (bs : List Nat)
    (info : IconScoreDeployInfo)
    (hTx : s.txParams tx_hash = none)
    (hRec : s.deployInfo score_address = some bs)
    (hDec : IconScoreDeployInfo.from_bytes bs = .ok info)
    (hOwn : info.owner ≠ owner2)
    (hLen : (dumps deploy_data).length < 2 ^ 32) :
    put_deploy_info_and_tx_params revision dumps loads s score_address
      deploy_type owner2 tx_hash deploy_data = .error Err.ownerMismatch ∧
    durableAfter (put_deploy_info_and_tx_params revision dumps loads s
      score_address deploy_type owner2 tx_hash deploy_data) s = s := by
  have hLen' : (dumps deploy_data).length < 4294967296 := by
    have : (2 : Nat) ^ 32 = 4294967296 := by norm_num
    omega
  have hmain : put_deploy_info_and_tx_params revision dumps loads s score_address
      deploy_type owner2 tx_hash deploy_data = .error Err.ownerMismatch := by
    unfold put_deploy_info_and_tx_params
    simp [get_deploy_tx_params, hTx, put_deploy_tx_params, txParamsToBytes, hLen',
      get_deploy_info, hRec, hDec, hOwn]
  exact ⟨hmain, by rw [hmain]; rfl⟩

/-- Witness for C1 at concrete inputs: the stored record's owner is
`exOwnerAddr`, the call presents `exOtherOwner`, the tx hash is fresh. -/
theorem put_owner_mismatch_rejected_witness :
    put_deploy_info_and_tx_params 2 exDumps exLoads exStorage2 exScoreAddr
      DeployType.UPDATE exOtherOwner exTxHash2 () = .error Err.ownerMismatch ∧
    durableAfter (put_deploy_info_and_tx_params 2 exDumps exLoads exStorage2
      exScoreAddr DeployType.UPDATE exOtherOwner exTxHash2 ()) exStorage2
      = exStorage2 :=
  put_owner_mismatch_rejected 2 exDumps exLoads exStorage2 exScoreAddr
    DeployType.UPDATE exOtherOwner exTxHash2 () exInfoBytes exInfo
    (by decide) rfl rfl (by decide) (by decide)

/-- True exactly when an embedded operation raised an error. -/
def isErrResult {α : Type} : Except Err α → Bool
  | .error _ => true
  | .ok _ => false

/-- An ArrayDB key space of size 1: the size slot holds the encoding of 1 and
index 0 holds a value. -/
def exArr : ArrayDBState :=
  ⟨fun k => if k = ARRAY_SIZE_KEY then some [1]
            else if k = [0] then some [7] else none⟩

/-- C7 counterexample: the claim says `set(i, v)` normalizes a negative `i` by
adding the size and fails with IndexOutOfRange when the normalized index is
out of range.  On a size-1 array, `set(-2, v)` has normalized index -1 and
should fail; the source's `__setitem__` checks only `index >= size`, so the
call succeeds (writing under the raw key of -2). -/
theorem arr_setitem_negative_not_normalized :
    isErrResult (arr_setitem exArr (-2) [9]) = false := rfl

/-- C7 amended: `get(i)` normalizes a negative index by adding the size exactly
once and fails with IndexOutOfRange exactly when the normalized index is
negative or at least the size; `set(i, v)` performs no negative-index
normalization and fails exactly when `i >= size` (a negative `i` is accepted
and writes under the key of the raw index); consequently `get(-1)` equals
`get(size-1)` when the size is positive, and `get(size)` always fails with
IndexOutOfRange. -/
theorem arr_index_semantics {α : Type} (decodeVal : Option (List Nat) → α)
    (s : ArrayDBState) (index : Int) (byte_value : List Nat) :
    (arr_getitem decodeVal s index =
      (if (if index < 0 then index + arr_size s else index) < 0 ∨
          arr_size s ≤ (if index < 0 then index + arr_size s else index) then
        .error Err.indexOutOfRange
       else .ok (decodeVal (s.db (int_to_bytes
          (if index < 0 then index + arr_size s else index)))))) ∧
    (arr_setitem s index byte_value =
      (if arr_size s ≤ index then .error Err.indexOutOfRange
       else .ok ⟨fun k => if k = int_to_bytes index then some byte_value
                          else s.db k⟩)) ∧
    (0 < arr_size s → arr_getitem decodeVal s (-1)
        = arr_getitem decodeVal s (arr_size s - 1)) ∧
    arr_getitem decodeVal s (arr_size s) = .error Err.indexOutOfRange := by
  refine ⟨rfl, rfl, ?_, ?_⟩
  · intro h
    unfold arr_getitem
    rw [if_pos (by omega : (-1 : Int) < 0),
      if_neg (by omega : ¬(arr_size s - 1 < 0)),
      if_neg (by omega : ¬((-1 : Int) + arr_size s < 0 ∨
        arr_size s ≤ (-1 : Int) + arr_size s)),
      if_neg (by omega : ¬((arr_size s - 1 : Int) < 0 ∨
        arr_size s ≤ arr_size s - 1))]
    have e : (-1 : Int) + arr_size s = arr_size s - 1 := by ring
    rw [e]
  · unfold arr_getitem
    by_cases hn : arr_size s < 0
    · rw [if_pos hn, if_pos (by omega)]
    · rw [if_neg hn, if_pos (by omega)]

/-- Witness for the amended C7 on the concrete size-1 array. -/
theorem arr_index_semantics_witness :
    arr_getitem (fun x => x) exArr (-1)
      = arr_getitem (fun x => x) exArr (arr_size exArr - 1) ∧
    arr_getitem (fun x => x) exArr (arr_size exArr)
      = .error Err.indexOutOfRange :=
  ⟨(arr_index_semantics (fun x => x) exArr (-1) [9]).2.2.1 (by decide),
   (arr_index_semantics (fun x => x) exArr 0 [9]).2.2.2⟩

/-- A single-element linked list (node id 1, payload 42). -/
def exLL1 : LLState :=
  ⟨fun k => if k = 1 then some ⟨0, 0, [42]⟩ else none, 1, 1, 1, 1⟩

/-- The empty linked list. -/
def exLL0 : LLState := ⟨fun _ => none, 0, 0, 0, 0⟩

/-- C9 counterexample: the claim says that on a size-1 list every index whose
normalized value is still out of range — in particular -2, normalizing to
-1 — fails with IndexOutOfRange and leaves the list unchanged.  The source
only checks `index >= size`, so `remove_at(-2)` proceeds into the
single-element branch: it succeeds (no error) and empties the list (the size
counter drops to 0). -/
theorem ll_remove_double_negative_not_rejected :
    (ll_remove exLL1 (-2)).fst = none ∧
    (ll_remove exLL1 (-2)).snd.sizeCtr = 0 := ⟨rfl, rfl⟩

/-- C9 amended: `remove_at(index)` fails with IndexOutOfRange and leaves the
stored list (nodes and every counter) unchanged exactly for `index >= size`;
a negative index whose normalized value is still negative is not rejected —
on a non-empty list the operation proceeds and removes an element, and on an
empty list it fails by dereferencing the missing node (an attribute error,
not IndexOutOfRange), again without touching the stored list. -/
theorem ll_remove_out_of_range (s : LLState) (index : Int) :
    (s.sizeCtr ≤ index → ll_remove s index = (some Err.indexOutOfRange, s)) ∧
    (s.sizeCtr = 0 → index < 0 →
      ll_remove s index = (some Err.noneAttribute, s)) := by
  constructor
  · intro h
    unfold ll_remove
    rw [if_pos h]
  · intro h0 hneg
    unfold ll_remove
    rw [if_neg (by omega)]
    rw [if_pos hneg]
    rw [if_neg (by omega : ¬(s.sizeCtr = 1))]
    unfold ll_get_node_by_index
    rw [if_neg (by omega : ¬(s.sizeCtr ≤ index + s.sizeCtr)), if_pos h0]
    by_cases hi : index + s.sizeCtr = s.sizeCtr - 1
    · rw [if_pos hi]
    · rw [if_neg hi]

/-- Witness for the amended C9: `remove_at(5)` on the size-1 list is rejected
with the list untouched, and `remove_at(-1)` on the empty list dereferences a
missing node. -/
theorem ll_remove_out_of_range_witness :
    ll_remove exLL1 5 = (some Err.indexOutOfRange, exLL1) ∧
    ll_remove exLL0 (-1) = (some Err.noneAttribute, exLL0) :=
  ⟨(ll_remove_out_of_range exLL1 5).1 (by decide),
   (ll_remove_out_of_range exLL0 (-1)).2 (by decide) (by decide)⟩

/-- Forward traversal of a consistent chain: walking `k` links from the node at
position `j` reaches the node at position `j + k`. -/
theorem ll_walk_forward (store : Int → Option LLNodeRec)
    (elems : List (Int × List Nat)) (hc : ll_chain_ok store elems) :
    ∀ k j, j + k < elems.length →
      ll_walk store false (ll_id_at elems j) k
        = some (ll_node_at elems (j + k)) := by
  intro k
  induction k with
  | zero =>
      intro j hj
      have h := hc j (by omega)
      simp [ll_walk, ll_get_node_by_id, h, ll_node_at, ll_node_rec_at]
  | succ k ih =>
      intro j hj
      have h := hc j (by omega)
      have e : ll_walk store false (ll_id_at elems j) (k + 1)
          = ll_walk store false (ll_id_at elems (j + 1)) k := by
        simp [ll_walk, ll_get_node_by_id, h, ll_node_rec_at]
      rw [e, ih (j + 1) (by omega), show j + (k + 1) = (j + 1) + k by omega]

/-- Backward traversal of a consistent chain: walking `k` prev-links from the
node at position `j` reaches the node at position `j - k`. -/
theorem ll_walk_backward (store : Int → Option LLNodeRec)
    (elems : List (Int × List Nat)) (hc : ll_chain_ok store elems) :
    ∀ k j, k ≤ j → j < elems.length →
      ll_walk store true (ll_id_at elems j) k
        = some (ll_node_at elems (j - k)) := by
  intro k
  induction k with
  | zero =>
      intro j _ hj
      have h := hc j (by omega)
      simp [ll_walk, ll_get_node_by_id, h, ll_node_at, ll_node_rec_at]
  | succ k ih =>
      intro j hk hj
      have h := hc j (by omega)
      have e : ll_walk store true (ll_id_at elems j) (k + 1)
          = ll_walk store true (ll_id_at elems (j - 1)) k := by
        simp [ll_walk, ll_get_node_by_id, h, ll_node_rec_at,
          show ¬(j = 0) by omega]
      rw [e, ih (j - 1) (by omega) (by omega),
        show j - (k + 1) = (j - 1) - k by omega]

/-- C8: on a well-formed list, `get(index)` with `0 <= index < size` locates
exactly the node the naive forward walk of `index` steps from the head
reaches, and that node is the one at position `index` of the head-to-tail
order; moreover, whenever the implementation takes the second-half shortcut
(`index > size // 2`), the backward walk of `size - index - 1` steps from the
tail it performs yields the same node as the naive forward walk. -/
theorem ll_get_index_shortest_path (s : LLState)
    (elems : List (Int × List Nat)) (index : Int)
    (hwf : ll_well_formed s elems) (h0 : 0 ≤ index) (h1 : index < s.sizeCtr) :
    ll_get_node_by_index s.store s.headId s.tailId s.sizeCtr index
      = .ok (ll_walk s.store false s.headId index.toNat) ∧
    ll_walk s.store false s.headId index.toNat
      = some (ll_node_at elems index.toNat) ∧
    (Int.fdiv s.sizeCtr 2 < index →
      ll_walk s.store true s.tailId (s.sizeCtr - index - 1).toNat
        = ll_walk s.store false s.headId index.toNat) := by
  obtain ⟨hc, hh, ht, hs⟩ := hwf
  have hj : index.toNat < elems.length := by omega
  have hfwd : ll_walk s.store false s.headId index.toNat
      = some (ll_node_at elems index.toNat) := by
    have h := ll_walk_forward s.store elems hc index.toNat 0 (by omega)
    rw [hh]
    simpa using h
  have hbwdwalk : ll_walk s.store true s.tailId (s.sizeCtr - index - 1).toNat
      = some (ll_node_at elems index.toNat) := by
    have hk : (s.sizeCtr - index - 1).toNat
        = elems.length - 1 - index.toNat := by omega
    have h := ll_walk_backward s.store elems hc
      (elems.length - 1 - index.toNat) (elems.length - 1) (by omega) (by omega)
    rw [ht, hk, h, show elems.length - 1 - (elems.length - 1 - index.toNat)
      = index.toNat by omega]
  refine ⟨?_, hfwd, fun _ => by rw [hbwdwalk, hfwd]⟩
  simp only [ll_get_node_by_index]
  rw [if_neg (show ¬(s.sizeCtr ≤ index) by omega),
    if_neg (show ¬(s.sizeCtr = 0) by omega),
    if_neg (show ¬(index < 0) by omega)]
  by_cases hb : Int.fdiv s.sizeCtr 2 < index
  · rw [if_pos hb, hbwdwalk, hfwd]
  · rw [if_neg hb, hfwd]

/-- A well-formed three-element linked list with ids 1, 2, 3. -/
def exElems : List (Int × List Nat) := [(1, [10]), (2, [20]), (3, [30])]

/-- The key space of `exElems`. -/
def exLL3 : LLState :=
  ⟨fun k => if k = 1 then some ⟨0, 2, [10]⟩
            else if k = 2 then some ⟨1, 3, [20]⟩
            else if k = 3 then some ⟨2, 0, [30]⟩ else none,
   1, 3, 3, 3⟩

/-- The three-element example list is well formed. -/
theorem exLL3_wf : ll_well_formed exLL3 exElems := by
  refine ⟨?_, rfl, rfl, rfl⟩
  intro j hj
  have hj3 : j < 3 := by simpa [exElems] using hj
  interval_cases j <;> rfl

/-- Witness for C8 at index 2 of the three-element list (the second-half
shortcut branch: 2 > 3 // 2). -/
theorem ll_get_index_shortest_path_witness :
    ll_get_node_by_index exLL3.store exLL3.headId exLL3.tailId exLL3.sizeCtr 2
      = .ok (ll_walk exLL3.store false exLL3.headId (Int.toNat 2)) ∧
    ll_walk exLL3.store false exLL3.headId (Int.toNat 2)
      = some (ll_node_at exElems (Int.toNat 2)) ∧
    (Int.fdiv exLL3.sizeCtr 2 < 2 →
      ll_walk exLL3.store true exLL3.tailId ((exLL3.sizeCtr - 2 - 1).toNat)
        = ll_walk exLL3.store false exLL3.headId (Int.toNat 2)) :=
  ll_get_index_shortest_path exLL3 exElems 2 exLL3_wf (by decide) (by decide)

/-- C10: on a non-empty well-formed list of size `n`, `get(index)` with
`index < -n` does not fail: the `index >= size` check precedes negative
normalization, the normalized index stays negative, the forward branch is
taken and `range` of a negative count walks zero steps, so the head element
(position 0) is returned. -/
theorem ll_getitem_very_negative {α : Type} (decodeVal : List Nat → α)
    (s : LLState) (elems : List (Int × List Nat)) (index : Int)
    (hwf : ll_well_formed s elems) (hne : elems ≠ [])
    (hidx : index < -s.sizeCtr) :
    ll_getitem decodeVal s index = .ok (decodeVal (ll_data_at elems 0)) := by
  obtain ⟨hc, hh, ht, hs⟩ := hwf
  have hlen : 0 < elems.length := List.length_pos.mpr hne
  have h0 := hc 0 hlen
  have hfd : 0 ≤ Int.fdiv s.sizeCtr 2 := Int.fdiv_nonneg (by omega) (by omega)
  have hsteps : (index + s.sizeCtr).toNat = 0 := by omega
  unfold ll_getitem
  simp only [ll_get_node_by_index]
  rw [if_neg (show ¬(s.sizeCtr ≤ index) by omega),
    if_neg (show ¬(s.sizeCtr = 0) by omega),
    if_pos (show index < 0 by omega),
    if_neg (show ¬(Int.fdiv s.sizeCtr 2 < index + s.sizeCtr) by
      intro hcon
      omega)]
  simp only [hsteps]
  rw [hh]
  simp [ll_walk, ll_get_node_by_id, h0, ll_node_rec_at]

/-- Witness for C10: on the three-element list, `get(-5)` returns the head
payload. -/
theorem ll_getitem_very_negative_witness :
    ll_getitem (fun d => d) exLL3 (-5)
      = .ok (ll_data_at exElems 0) :=
  ll_getitem_very_negative (fun d => d) exLL3 exElems (-5) exLL3_wf
    (by decide) (by decide)

/-! Codec helper lemmas. -/

/-- Packing a byte string of exactly the format width is the identity. -/
theorem packS_exact (k : Nat) (l : List Nat) (h : l.length = k) :
    packS k l = l := by
  subst h
  simp [packS, List.take_length]

/-- The fixed-width encoder always emits exactly `k` bytes. -/
theorem natToBEBytes_length (k : Nat) : ∀ v, (natToBEBytes k v).length = k := by
  induction k with
  | zero => intro v; rfl
  | succ k ih => intro v; simp [natToBEBytes, ih]

/-- Round trip of the 4-byte big-endian length field. -/
theorem natFromBE_toBE4 (L : Nat) (h : L < 2 ^ 32) :
    natFromBE (natToBEBytes 4 L) = L := by
  have e : natToBEBytes 4 L = [L / 256 / 256 / 256 % 256, L / 256 / 256 % 256,
      L / 256 % 256, L % 256] := rfl
  have e32 : (2 : Nat) ^ 32 = 4294967296 := by norm_num
  rw [e32] at h
  rw [e]
  simp [natFromBE]
  omega

/-- A 21-byte-body address encodes to exactly 21 bytes. -/
theorem addr_to_bytes_length (a : Address) (h : a.body.length = 20) :
    a.to_bytes.length = 21 := by
  simp [Address.to_bytes, h]

/-- Address decode inverts encode on addresses with a 20-byte body. -/
theorem addr_from_to_bytes (a : Address) (h : a.body.length = 20) :
    Address.from_bytes a.to_bytes = .ok a := by
  cases a with
  | mk ic body => cases ic <;> simp_all [Address.to_bytes, Address.from_bytes]

/-- The spec's fixed `DeployRecord` layout:
version(1) ‖ deploy_state(1) ‖ score_address(21) ‖ owner(21) ‖
current_tx_hash(32) ‖ next_tx_hash(32). -/
def deployRecordLayout (info : IconScoreDeployInfo) (c n : List Nat) :
    List Nat :=
  [0, info.deploy_state.value] ++ (info.score_address.to_bytes ++
    (info.owner.to_bytes ++ (c ++ n)))

/-- The spec's `DeployTxParams` layout: version(1) ‖ deploy_type(1) ‖
payload_length(4, big-endian) ‖ score_address(21) ‖ tx_hash(32) ‖ payload. -/
def txParamsLayout {Δ : Type} (dumps : Δ → List Nat)
    (p : IconScoreDeployTXParams Δ) : List Nat :=
  [0, p.deploy_type.value] ++ (natToBEBytes 4 (dumps p.deploy_data).length ++
    (p.score_address.to_bytes ++ (p.tx_hash ++ dumps p.deploy_data)))

/-- C4: for a `DeployRecord` with 21-byte addresses and 32-byte hashes, encode
emits exactly the claimed 108-byte fixed layout and decode inverts it; for
`DeployTxParams` whose payload serializes and parses back (the meaning of
JSON-serializable `deploy_data`), decode inverts encode as well. -/
theorem codec_round_trip {Δ : Type} (dumps : Δ → List Nat)
    (loads : List Nat → Option Δ) (info : IconScoreDeployInfo) (c n : List Nat)
    (p : IconScoreDeployTXParams Δ)
    (hsb : info.score_address.body.length = 20)
    (hob : info.owner.body.length = 20)
    (hc : info.current_tx_hash = some c) (hn : info.next_tx_hash = some n)
    (hcl : c.length = 32) (hnl : n.length = 32)
    (hpb : p.score_address.body.length = 20) (hph : p.tx_hash.length = 32)
    (hload : loads (dumps p.deploy_data) = some p.deploy_data)
    (hplen : (dumps p.deploy_data).length < 2 ^ 32) :
    info.to_bytes = .ok (deployRecordLayout info c n) ∧
    (deployRecordLayout info c n).length = 108 ∧
    IconScoreDeployInfo.from_bytes (deployRecordLayout info c n) = .ok info ∧
    txParamsToBytes dumps p = .ok (txParamsLayout dumps p) ∧
    txParamsFromBytes loads (txParamsLayout dumps p) = .ok p := by
  have hA : info.score_address.to_bytes.length = 21 := addr_to_bytes_length _ hsb
  have hO : info.owner.to_bytes.length = 21 := addr_to_bytes_length _ hob
  have h1 : info.to_bytes = .ok (deployRecordLayout info c n) := by
    unfold IconScoreDeployInfo.to_bytes
    rw [hc, hn]
    simp [packS_exact _ _ hA, packS_exact _ _ hO, packS_exact _ _ hcl,
      packS_exact _ _ hnl, deployRecordLayout, List.append_assoc]
  have hlay : (deployRecordLayout info c n).length = 108 := by
    simp [deployRecordLayout, hA, hO, hcl, hnl]
  have h2 : IconScoreDeployInfo.from_bytes (deployRecordLayout info c n)
      = .ok info := by
    have e1 : (deployRecordLayout info c n).drop 1
        = info.deploy_state.value :: (info.score_address.to_bytes ++
          (info.owner.to_bytes ++ (c ++ n))) := by
      simp [deployRecordLayout]
    have e2 : (deployRecordLayout info c n).drop 2
        = info.score_address.to_bytes ++ (info.owner.to_bytes ++ (c ++ n)) := by
      simp [deployRecordLayout]
    have en : n.take 32 = n := by
      rw [← hnl]
      exact List.take_length n
    simp only [IconScoreDeployInfo.from_bytes, if_pos hlay, e1, e2,
      List.headD_cons, List.take_left' hA, List.drop_left' hA,
      List.take_left' hO, List.drop_left' hO, List.take_left' hcl,
      List.drop_left' hcl, en, addr_from_to_bytes _ hsb,
      addr_from_to_bytes _ hob, except_bind_ok]
    obtain ⟨sa, st, ow, cu, nx⟩ := info
    simp only at hc hn
    subst hc hn
    cases st <;>
      simp [DeployState.value, DeployState.ofValue, mkIconScoreDeployInfo,
        hcl, hnl]
  have hAp : p.score_address.to_bytes.length = 21 := addr_to_bytes_length _ hpb
  have h4 : txParamsToBytes dumps p = .ok (txParamsLayout dumps p) := by
    unfold txParamsToBytes
    rw [if_pos hplen]
    simp [packS_exact _ _ hAp, packS_exact _ _ hph, txParamsLayout,
      List.append_assoc]
  have hlen2 : (txParamsLayout dumps p).length
      = 59 + (dumps p.deploy_data).length := by
    simp [txParamsLayout, natToBEBytes_length, hAp, hph]
    omega
  have h5 : txParamsFromBytes loads (txParamsLayout dumps p) = .ok p := by
    have eBE : (natToBEBytes 4 (dumps p.deploy_data).length).length = 4 :=
      natToBEBytes_length 4 _
    have e1 : (txParamsLayout dumps p).drop 1
        = p.deploy_type.value :: (natToBEBytes 4 (dumps p.deploy_data).length
          ++ (p.score_address.to_bytes ++ (p.tx_hash ++ dumps p.deploy_data))) := by
      simp [txParamsLayout]
    have e2 : (txParamsLayout dumps p).drop 2
        = natToBEBytes 4 (dumps p.deploy_data).length
          ++ (p.score_address.to_bytes ++ (p.tx_hash ++ dumps p.deploy_data)) := by
      simp [txParamsLayout]
    have e6 : (txParamsLayout dumps p).drop 6
        = p.score_address.to_bytes ++ (p.tx_hash ++ dumps p.deploy_data) := by
      have : (txParamsLayout dumps p).drop 6
          = ((txParamsLayout dumps p).drop 2).drop 4 := by
        rw [List.drop_drop]
      rw [this, e2, List.drop_left' eBE]
    have e59 : (txParamsLayout dumps p).drop 59 = dumps p.deploy_data := by
      have s1 : (txParamsLayout dumps p).drop 59
          = ((txParamsLayout dumps p).drop 6).drop 53 := by
        rw [List.drop_drop]
      have s2 : ((txParamsLayout dumps p).drop 6).drop 53
          = (p.tx_hash ++ dumps p.deploy_data).drop 32 := by
        rw [e6, show (53 : Nat) = 21 + 32 by rfl, ← List.drop_drop,
          List.drop_left' hAp]
      rw [s1, s2, List.drop_left' hph]
    have etake : (p.tx_hash ++ dumps p.deploy_data).take 32 = p.tx_hash :=
      List.take_left' hph
    simp only [txParamsFromBytes, if_pos (by omega : 59 ≤ (txParamsLayout dumps p).length),
      e1, e2, e6, e59, List.headD_cons, List.take_left' eBE,
      List.drop_left' hAp, etake, natFromBE_toBE4 _ hplen, if_pos rfl, hload,
      addr_from_to_bytes _ hpb, except_bind_ok]
    obtain ⟨th, dt, sa, dd⟩ := p
    have hsa20 : sa.body.length = 20 := hpb
    cases dt <;>
      simp [DeployType.value, DeployType.ofValue,
        List.take_left' (addr_to_bytes_length sa hsa20),
        addr_from_to_bytes sa hsa20]
  exact ⟨h1, hlay, h2, h4, h5⟩

/-- An ACTIVE example record with both hashes present. -/
def exInfo2 : IconScoreDeployInfo :=
  ⟨exScoreAddr, .ACTIVE, exOwnerAddr, some (List.replicate 32 0), some exTxHash⟩

/-- Example tx params over a numeric payload type. -/
def exParams : IconScoreDeployTXParams Nat := ⟨exTxHash, .INSTALL, exScoreAddr, 5⟩

/-- A one-byte serializer for numeric payloads. -/
def exDumpsNat : Nat → List Nat := fun v => [v % 256]

/-- The matching parser for `exDumpsNat` on single-byte payloads. -/
def exLoadsNat : List Nat → Option Nat := fun l => some (l.headD 0)

/-- Witness for C4 on concrete record and tx-params values. -/
theorem codec_round_trip_witness :
    exInfo2.to_bytes
      = .ok (deployRecordLayout exInfo2 (List.replicate 32 0) exTxHash) ∧
    (deployRecordLayout exInfo2 (List.replicate 32 0) exTxHash).length = 108 ∧
    IconScoreDeployInfo.from_bytes
      (deployRecordLayout exInfo2 (List.replicate 32 0) exTxHash)
      = .ok exInfo2 ∧
    txParamsToBytes exDumpsNat exParams
      = .ok (txParamsLayout exDumpsNat exParams) ∧
    txParamsFromBytes exLoadsNat (txParamsLayout exDumpsNat exParams)
      = .ok exParams :=
  codec_round_trip exDumpsNat exLoadsNat exInfo2 (List.replicate 32 0)
    exTxHash exParams (by decide) (by decide) rfl rfl (by decide) (by decide)
    (by decide) (by decide) rfl (by decide)

/-- The spec's audit-skip condition: audit enforcement globally disabled, or
the active revision at/above the system-score-exemption revision and the
target a recognized system/builtin contract whose recorded owner equals the
transaction originator. -/
def auditSkipped (ctx : DeployCtx) (addr : Address)
    (ownerOpt : Option Address) : Bool :=
  !ctx.auditEnabled ||
    (decide (REVISION_2 ≤ ctx.revision) && ctx.isBuiltinScoreAddr addr
      && (ownerOpt == some ctx.origin))

/-- C5: the engine's audit decision equals the spec's skip condition (audit is
needed exactly when it is not skipped), and on a deployment transaction that
passes the address/blacklist/allow-list checks and whose composite storage
write succeeds, `invoke` immediately performs the deployment for the
transaction's own hash when audit is skipped, and otherwise stops at the
recorded state with no deployment call. -/
theorem invoke_audit_gate {Δ : Type} (dumps : Δ → List Nat)
    (loads : List Nat → Option Δ)
    (deployFn : Storage → List Nat → Except Err Storage) (ctx : DeployCtx)
    (s s' : Storage) (to_addr icon_score_address : Address) (data : Δ)
    (ownerOpt : Option Address)
    (hz : icon_score_address ≠ ZERO_SCORE_ADDRESS)
    (hca : icon_score_address.isContract = true)
    (hbl : ctx.blacklisted icon_score_address = false)
    (hwl : (ctx.deployerWhiteListOn && !ctx.deployerAllowed ctx.origin) = false)
    (hput : put_deploy_info_and_tx_params ctx.revision dumps loads s
      icon_score_address
      (if to_addr = ZERO_SCORE_ADDRESS then DeployType.INSTALL
       else DeployType.UPDATE)
      ctx.origin ctx.txHash data = .ok s')
    (hown : get_score_owner s' icon_score_address = .ok ownerOpt) :
    is_audit_needed ctx s' icon_score_address
      = .ok (!auditSkipped ctx icon_score_address ownerOpt) ∧
    invoke dumps loads deployFn ctx s to_addr icon_score_address data
      = (if auditSkipped ctx icon_score_address ownerOpt then
          (deployFn s' ctx.txHash).map fun s2 => (s2, some ctx.txHash)
         else .ok (s', none)) := by
  have hneed : is_audit_needed ctx s' icon_score_address
      = .ok (!auditSkipped ctx icon_score_address ownerOpt) := by
    unfold is_audit_needed auditSkipped
    rw [hown]
    simp only [except_bind_ok, except_pure_eq]
    congr 1
    by_cases hrev : REVISION_2 ≤ ctx.revision
    · simp only [if_pos hrev, decide_eq_true hrev]
      cases ctx.auditEnabled <;>
        cases ctx.isBuiltinScoreAddr icon_score_address <;>
        cases ownerOpt == some ctx.origin <;> simp
    · simp only [if_neg hrev, decide_eq_false hrev]
      cases ctx.auditEnabled <;> simp
  refine ⟨hneed, ?_⟩
  unfold invoke
  rw [if_neg hz]
  simp only [hca, Bool.not_true, Bool.false_eq_true, if_false]
  rw [if_neg hz]
  simp only [hbl, Bool.false_eq_true, if_false, hwl]
  rw [hput]
  simp only [except_bind_ok]
  rw [hneed]
  simp only [except_bind_ok, Bool.not_not]
  cases hsk : auditSkipped ctx icon_score_address ownerOpt
  · simp
  · simp only [if_pos rfl, Bool.true_eq_false]
    cases deployFn s' ctx.txHash <;> simp [Except.map]

/-- A trivial deployment function for witnesses. -/
def exDeployFn : Storage → List Nat → Except Err Storage := fun s _ => .ok s

/-- An example context: originator `exOwnerAddr`, revision 2, audit enabled,
no deployer allow-list, nothing blacklisted, no builtin addresses. -/
def exCtx : DeployCtx :=
  ⟨exOwnerAddr, exTxHash2, 2, true, false, fun _ => true, fun _ => false,
   fun _ => false⟩

/-- The storage after the successful example composite write (an update by the
record's owner with a fresh tx hash). -/
def exS5 : Storage :=
  durableAfter (put_deploy_info_and_tx_params 2 exDumps exLoads exStorage2
    exScoreAddr DeployType.UPDATE exOwnerAddr exTxHash2 ()) emptyStorage

set_option maxRecDepth 10000 in
/-- Witness for C5 at concrete inputs (audit enabled, target not a builtin:
audit is needed and the transaction stops at RECORDED with no deployment). -/
theorem invoke_audit_gate_witness :
    is_audit_needed exCtx exS5 exScoreAddr
      = .ok (!auditSkipped exCtx exScoreAddr (some exOwnerAddr)) ∧
    invoke exDumps exLoads exDeployFn exCtx exStorage2 exScoreAddr exScoreAddr ()
      = (if auditSkipped exCtx exScoreAddr (some exOwnerAddr) then
          (exDeployFn exS5 exCtx.txHash).map fun s2 => (s2, some exCtx.txHash)
         else .ok (exS5, none)) :=
  invoke_audit_gate exDumps exLoads exDeployFn exCtx exStorage2 exS5
    exScoreAddr exScoreAddr () (some exOwnerAddr) (by decide) rfl rfl rfl
    rfl rfl

/-- The `finally` clause of `_on_deploy` always restores the backed-up
sender/transaction context, on success and on failure alike. -/
theorem on_deploy_snd (cb : DeployCollab) (cfg : EngineCfg) (s : Storage)
    (c0 : EngineCtxState)
    (tx_params : IconScoreDeployTXParams EngineDeployData) :
    (on_deploy cb cfg s c0 tx_params).2 = c0 := rfl

/-- C6: for every outcome of `deploy` (`do_deploy`), the prior
sender/transaction context is restored; when activation was not invoked, an
error was raised (and is propagated to the caller) and the deploy storage —
in particular the record's `next_tx_hash` — is exactly the prior one, so the
pending deployment remains retryable; and a non-error outcome implies the
activation step was reached. -/
theorem engine_deploy_failure_retryable (cb : DeployCollab) (cfg : EngineCfg)
    (eloads : List Nat → Option EngineDeployData) (s : Storage)
    (c0 : EngineCtxState) (tx_hash : List Nat) :
    (engine_deploy cb cfg eloads s c0 tx_hash).msgSender = c0.msgSender ∧
    (engine_deploy cb cfg eloads s c0 tx_hash).tx = c0.tx ∧
    ((engine_deploy cb cfg eloads s c0 tx_hash).activateCalled = false →
      (engine_deploy cb cfg eloads s c0 tx_hash).err.isSome = true ∧
      (engine_deploy cb cfg eloads s c0 tx_hash).storage = s) ∧
    ((engine_deploy cb cfg eloads s c0 tx_hash).err = none →
      (engine_deploy cb cfg eloads s c0 tx_hash).activateCalled = true) := by
  unfold engine_deploy
  split
  · simp
  · simp
  · rename_i tx_params _
    split
    · simp
    · rename_i data' _
      split
      · rename_i e c' heq3
        have hc := on_deploy_snd cb cfg s c0 { tx_params with deploy_data := data' }
        rw [heq3] at hc
        simp only at hc
        subst hc
        simp
      · rename_i u c' heq3
        have hc := on_deploy_snd cb cfg s c0 { tx_params with deploy_data := data' }
        rw [heq3] at hc
        simp only at hc
        subst hc
        split <;> simp

/-- A collaborator set whose operations all succeed. -/
def exCollab : DeployCollab :=
  ⟨fun _ _ _ => .ok (), fun _ _ _ => .ok (), fun _ _ => .ok (),
   fun l => .ok l, fun _ _ => .ok (), fun _ _ => .ok (),
   fun _ => .ok exOwnerAddr, fun _ _ => .ok ()⟩

/-- An example engine configuration. -/
def exCfg : EngineCfg := ⟨false, false, 2⟩

/-- An example sender/transaction context. -/
def exCtxSt : EngineCtxState := ⟨exOtherOwner, some exTxHash⟩

/-- Witness for C6 at a concrete input (no tx params stored: the deployment
fails with InvalidParams, activation is never invoked, the storage and the
context are untouched). -/
theorem engine_deploy_failure_retryable_witness :
    (engine_deploy exCollab exCfg (fun _ => none) emptyStorage exCtxSt
        exTxHash).msgSender = exCtxSt.msgSender ∧
    (engine_deploy exCollab exCfg (fun _ => none) emptyStorage exCtxSt
        exTxHash).tx = exCtxSt.tx ∧
    ((engine_deploy exCollab exCfg (fun _ => none) emptyStorage exCtxSt
        exTxHash).activateCalled = false →
      (engine_deploy exCollab exCfg (fun _ => none) emptyStorage exCtxSt
        exTxHash).err.isSome = true ∧
      (engine_deploy exCollab exCfg (fun _ => none) emptyStorage exCtxSt
        exTxHash).storage = emptyStorage) ∧
    ((engine_deploy exCollab exCfg (fun _ => none) emptyStorage exCtxSt
        exTxHash).err = none →
      (engine_deploy exCollab exCfg (fun _ => none) emptyStorage exCtxSt
        exTxHash).activateCalled = true) :=
  engine_deploy_failure_retryable exCollab exCfg (fun _ => none) emptyStorage
    exCtxSt exTxHash
